import Mathlib

/-!
Verification of the asset/node data-model logic of
`apps/assets/models/asset/common.py`: protocol setting resolution,
layered info aggregation, node-closure computation and secret-type
classification, shallowly embedded in Lean.
-/

namespace JmsAssets

/-- Python values as stored in the model's JSON columns.  `isinstance(v,
(list, dict))` tests are mirrored by `PyVal.isStructured`. -/
inductive PyVal where
  | str : String → PyVal
  | int : Int → PyVal
  | bool : Bool → PyVal
  | none : PyVal
  | list : List PyVal → PyVal
  | dict : List (String × PyVal) → PyVal

/-- A Python `dict` keyed by strings (value semantics: the rightmost
binding of a key is its current value, mirroring `dict.update`). -/
abbrev SMap := List (String × PyVal)

/-- Lookup in an `SMap`: the value of the rightmost binding of `k`,
mirroring Python `dict.get`. -/
def SMap.get (m : SMap) (k : String) : Option PyVal :=
  (m.reverse.find? (fun q => q.1 == k)).map (·.2)

/-- `m1.update m2` mirrors Python `d1.update(d2)`: on a key collision the
binding of `m2` wins (see `SMap.get_update`). -/
def SMap.update (m1 m2 : SMap) : SMap := m1 ++ m2

/-- `isinstance(v, (list, dict))`. -/
def PyVal.isStructured : PyVal → Bool
  | .list _ => true
  | .dict _ => true
  | _ => false

/-- A node of the grouping tree: `key` is a colon-delimited path encoding
ancestry (e.g. `"1:2:5"`). -/
structure Node where
  id : Nat
  key : String
deriving DecidableEq

/-- One entry of the platform's protocol catalog, as projected by
`values('name', 'public', 'setting')`. -/
structure PlatformProtocol where
  name : String
  public : Bool
  setting : SMap

/-- The platform a managed asset belongs to.  `automation` is the optional
automation profile, represented by its `model_to_dict` field map. -/
structure Platform where
  name : String
  type : String
  category : String
  domain_enabled : Bool
  su_enabled : Bool
  automation : Option SMap
  protocols : List PlatformProtocol

/-- A per-asset protocol record.  `_setting` is the transient per-instance
override (`Protocol._setting` in the source), absent when `None`. -/
structure Protocol where
  name : String
  port : Int
  _setting : Option SMap

/-- One structured field of a category extension model
(`instance._meta.local_fields`); `isEncrypt` mirrors
`isinstance(field, EncryptMixin)` and `isJSON` mirrors
`isinstance(field, models.JSONField)`. -/
structure SpecField where
  name : String
  isJSON : Bool
  isEncrypt : Bool
deriving DecidableEq

/-- A category-specific extension instance (`getattr(asset, category)`):
its field list and the value `getattr(instance, name)` of each field. -/
structure CategoryInstance where
  fields : List SpecField
  values : String → PyVal

/-- A managed asset. -/
structure Asset where
  id : Nat
  name : String
  address : String
  platform : Platform
  nodes : List Node
  is_active : Bool
  gathered_info : SMap
  custom_info : SMap
  protocols : List Protocol
  categoryInstance : Option CategoryInstance

/-- Modelled from the spec: the external collaborators of the analysed
module — the node and asset tables of the storage engine, the
organization root node (`Node.org_root()`: a designated root node exists
once per organization), the static protocol → secret-types table
(`const.Protocol.protocol_secret_types()`: a lookup table from protocol
name to eligible secret types), and the JSON decoder (`json.loads`,
applied to JSON-column scalars). -/
structure Env where
  nodeDb : List Node
  assetDb : List Asset
  orgRoot : Node
  protocol_secret_types : String → List String
  loads : PyVal → PyVal

/-- `Protocol.asset_platform_protocol`: the first entry of the owning
asset's platform catalog whose name matches, `none` when no entry
matches (the source returns `{}` there). -/
def Protocol.asset_platform_protocol (a : Asset) (p : Protocol) : Option PlatformProtocol :=
  (a.platform.protocols.filter (fun e => e.name == p.name)).head?

/-- `Protocol.setting`: the explicit override when it is not `None`,
otherwise the matching catalog entry's `setting`, otherwise `{}`. -/
def Protocol.setting (a : Asset) (p : Protocol) : SMap :=
  match p._setting with
  | some s => s
  | Option.none =>
    match Protocol.asset_platform_protocol a p with
    | some e => e.setting
    | Option.none => []

/-- The value `get_spec_values` stores for one field: the instance's
attribute value, JSON-decoded when the field is a JSON column whose value
is not already a list or dict. -/
def specValue (env : Env) (inst : CategoryInstance) (f : SpecField) : PyVal :=
  let v := inst.values f.name
  if f.isJSON && !v.isStructured then env.loads v else v

/-- `Asset.get_spec_values`: collect `getattr(instance, field.name)` for
each field into a map (`info[i.name] = v` in the source loop). -/
def Asset.get_spec_values (env : Env) (inst : CategoryInstance) (fields : List SpecField) : SMap :=
  fields.foldl (fun info f => SMap.update info [(f.name, specValue env inst f)]) []

/-- `Asset.get_spec_fields`: the extension instance's local fields other
than `asset_ptr`, keeping exactly those whose encryption flag equals
`secret`. -/
def Asset.get_spec_fields (inst : CategoryInstance) (secret : Bool) : List SpecField :=
  ((inst.fields.filter (fun f => f.name != "asset_ptr")).filter
    (fun f => f.isEncrypt == secret))

/-- `Asset.spec_info`: the non-secret structured fields of the asset's
category extension instance, `{}` when there is no such instance. -/
def Asset.spec_info (env : Env) (a : Asset) : SMap :=
  match a.categoryInstance with
  | Option.none => []
  | some inst => Asset.get_spec_values env inst (Asset.get_spec_fields inst false)

/-- `Asset.secret_info`: the encrypted structured fields of the asset's
category extension instance, `{}` when there is no such instance. -/
def Asset.secret_info (env : Env) (a : Asset) : SMap :=
  match a.categoryInstance with
  | Option.none => []
  | some inst => Asset.get_spec_values env inst (Asset.get_spec_fields inst true)

/-- `Asset.info`: gathered info, then custom info, then structured spec
info, merged with later layers winning (`dict.update`). -/
def Asset.info (env : Env) (a : Asset) : SMap :=
  let info : SMap := []
  let info := SMap.update info a.gathered_info
  let info := SMap.update info a.custom_info
  let info := SMap.update info (Asset.spec_info env a)
  info

/-- The base dict built inside `Asset.auto_config` before the automation
profile is merged in. -/
def auto_config_base (platform : Platform) : SMap :=
  [("su_enabled", PyVal.bool platform.su_enabled),
   ("domain_enabled", PyVal.bool platform.domain_enabled),
   ("ansible_enabled", PyVal.bool false)]

/-- `Asset.auto_config`: the base su/domain/ansible flags, overwritten and
extended by `model_to_dict(platform.automation)` when the platform has an
automation profile. -/
def Asset.auto_config (a : Asset) : SMap :=
  let platform := a.platform
  let auto_config := auto_config_base platform
  match platform.automation with
  | Option.none => auto_config
  | some automation => SMap.update auto_config automation

/-- `Asset.get_target_ssh_port`: the first protocol named `ssh`, else the
fallback port 22. -/
def Asset.get_target_ssh_port (a : Asset) : Int :=
  match (a.protocols.filter (fun p => p.name == "ssh")).head? with
  | some p => p.port
  | Option.none => 22

/-- Modelled from the spec: `Node.get_ancestor_keys(with_self=True)` (the
`Node` model is not part of the analysed sources) derives every
prefix-path of `node.key` split at path-segment boundaries, the node's
own key included; a pure function of `key`. -/
def Node.get_ancestor_keys_with_self (key : String) : List String :=
  let parts := key.splitOn ":"
  (List.range parts.length).map (fun i => String.intercalate ":" (parts.take (i + 1)))

/-- `NodesRelationMixin.get_nodes`: the asset's direct nodes, or the
nodes of the table whose id is the organization root's when the asset has
none. -/
def Asset.get_nodes (env : Env) (a : Asset) : List Node :=
  let nodes := a.nodes
  if nodes.isEmpty then env.nodeDb.filter (fun n => n.id == env.orgRoot.id)
  else nodes

/-- `NodesRelationMixin.get_all_node_keys`: the union over the asset's
direct nodes of each node's ancestor-key closure. -/
def Asset.get_all_node_keys (env : Env) (a : Asset) : List String :=
  (Asset.get_nodes env a).flatMap (fun n => Node.get_ancestor_keys_with_self n.key)

/-- `NodesRelationMixin.get_all_nodes` (the `flat=False` branch): the
distinct nodes of the table whose key lies in the asset's closure. -/
def Asset.get_all_nodes (env : Env) (a : Asset) : List Node :=
  (env.nodeDb.filter (fun n => (Asset.get_all_node_keys env a).contains n.key)).dedup

/-- `NodesRelationMixin.get_all_nodes_for_assets`: union the key closures
of all given assets, then resolve them against the node table in one
query. -/
def Asset.get_all_nodes_for_assets (env : Env) (assets : List Asset) : List Node :=
  let node_keys := assets.flatMap (fun a => Asset.get_all_node_keys env a)
  env.nodeDb.filter (fun n => node_keys.contains n.key)

/-- The secret types of one `(asset_id, protocols__name)` row: the static
table's entry, `[]` for the `NULL` protocol name of a protocol-less
asset's left-join row (in the source, `map.get(protocol, [])`). -/
def protocolRowTypes (env : Env) : Option String → List String
  | Option.none => []
  | some p => env.protocol_secret_types p

/-- The `Asset.objects.filter(id__in=asset_ids)` step of
`get_secret_type_assets`. -/
def secretAssetsQueried (env : Env) (asset_ids : List Nat) : List Asset :=
  env.assetDb.filter (fun a => asset_ids.contains a.id)

/-- The `(id, protocols__name)` rows of the batched
`values_list('id', 'protocols__name')` query: one row per protocol of
each asset, and one `NULL`-name left-join row for an asset without
protocols. -/
def assetProtocolRows (assets : List Asset) : List (Nat × Option String) :=
  assets.flatMap (fun a =>
    if a.protocols.isEmpty then [(a.id, Option.none)]
    else a.protocols.map (fun p => (a.id, some p.name)))

/-- The `defaultdict(set)` accumulation of `get_secret_type_assets`: per
asset id, the union of the secret types of that asset's rows. -/
def assetSecretTypesMapp (env : Env) (rows : List (Nat × Option String)) : Nat → List String :=
  rows.foldl
    (fun m row => fun i => if i = row.1 then m i ++ protocolRowTypes env row.2 else m i)
    (fun _ => [])

/-- `Asset.get_secret_type_assets`: fetch the assets with the given ids,
build the `(id, protocols__name)` rows, accumulate each row's secret
types per asset id, and keep the assets whose accumulated set contains
`secret_type`. -/
def Asset.get_secret_type_assets (env : Env) (asset_ids : List Nat) (secret_type : String) :
    List Asset :=
  let assets := secretAssetsQueried env asset_ids
  let asset_protocol := assetProtocolRows assets
  let asset_secret_types_mapp := assetSecretTypesMapp env asset_protocol
  assets.filter (fun a => (asset_secret_types_mapp a.id).contains secret_type)

/-- A concrete platform used by the concrete evaluation samples below. -/
def samplePlatform : Platform :=
  { name := "linux", type := "linux", category := "host",
    domain_enabled := true, su_enabled := false,
    automation := Option.none, protocols := [] }

/-- A concrete organization root node. -/
def sampleRoot : Node := { id := 1, key := "1" }

/-- A concrete asset with no node memberships, no protocols, empty info
layers and no category extension instance. -/
def sampleAssetBase : Asset :=
  { id := 1, name := "web", address := "10.0.0.7", platform := samplePlatform,
    nodes := [], is_active := true, gathered_info := [], custom_info := [],
    protocols := [], categoryInstance := Option.none }

/-- A concrete environment: one node (the organization root), no assets,
the secret-type table of the spec's example and an identity JSON
decoder. -/
def sampleEnv : Env :=
  { nodeDb := [sampleRoot], assetDb := [], orgRoot := sampleRoot,
    protocol_secret_types := fun p =>
      if p == "ssh" then ["password", "ssh_key"]
      else if p == "vnc" then ["vnc_password"] else [],
    loads := fun v => v }

/-- An asset with gathered telemetry but no category extension
instance. -/
def c1Asset : Asset := { sampleAssetBase with gathered_info := [("k", PyVal.str "g")] }

/-- A category extension instance with one encrypted and one plain
field. -/
def sampleInstance : CategoryInstance :=
  { fields := [⟨"passwd", false, true⟩, ⟨"cpu", false, false⟩],
    values := fun k => if k == "passwd" then PyVal.str "s" else PyVal.int 4 }

/-- An asset carrying `sampleInstance` as its category extension. -/
def c5Asset : Asset := { sampleAssetBase with categoryInstance := some sampleInstance }

/-- The spec example's asset `a1`: protocol `ssh`. -/
def c3AssetA : Asset :=
  { sampleAssetBase with
    id := 1, name := "a1",
    protocols := [⟨"ssh", 22, Option.none⟩] }

/-- The spec example's asset `a2`: only protocol `vnc`. -/
def c3AssetB : Asset :=
  { sampleAssetBase with
    id := 2, name := "a2",
    protocols := [⟨"vnc", 5900, Option.none⟩] }

/-- The environment of the spec's `getAssetsBySecretType` example. -/
def c3Env : Env := { sampleEnv with assetDb := [c3AssetA, c3AssetB] }

/-- An asset whose platform has an automation profile that overwrites
`ansible_enabled`. -/
def c8Asset : Asset :=
  { sampleAssetBase with
    platform :=
      { samplePlatform with automation := some [("ansible_enabled", PyVal.bool true)] } }

/-- An asset whose platform catalog declares an `ssh` entry with setting
`{"x": 1}`, as in the spec's `resolveSetting` example. -/
def sshPlatformAsset : Asset :=
  { sampleAssetBase with
    platform :=
      { samplePlatform with protocols := [⟨"ssh", true, [("x", PyVal.int 1)]⟩] } }

/-- An asset with an `ssh` protocol on port 22. -/
def c9AssetSsh : Asset :=
  { sampleAssetBase with protocols := [⟨"ssh", 22, Option.none⟩] }

/-- An asset with only an `rdp` protocol. -/
def c9AssetRdp : Asset :=
  { sampleAssetBase with protocols := [⟨"rdp", 3389, Option.none⟩] }

/-- Looking up a key in the empty map yields nothing. -/
@[simp]
theorem SMap.get_nil (k : String) : SMap.get [] k = Option.none := rfl

/-- `dict.update` semantics at the value level: after `m1.update m2`, a
key's value is `m2`'s when `m2` binds it, else `m1`'s. -/
@[simp]
theorem SMap.get_update (m1 m2 : SMap) (k : String) :
    SMap.get (SMap.update m1 m2) k = (SMap.get m2 k).or (SMap.get m1 k) := by
  unfold SMap.get SMap.update
  rw [List.reverse_append, List.find?_append]
  cases m2.reverse.find? (fun q => q.1 == k) <;> simp

/-- C6: `info` merges the three layers with precedence gathered telemetry
< user custom data < category-specific structured fields: for every key,
the structured value wins when present, else the custom value, else the
gathered value. -/
theorem info_layered_precedence (env : Env) (a : Asset) (k : String) :
    SMap.get (Asset.info env a) k =
      ((SMap.get (Asset.spec_info env a) k).or
        ((SMap.get a.custom_info k).or (SMap.get a.gathered_info k))) := by
  simp [Asset.info, Option.or_assoc]

/-- C1 counterexample: an asset with no category-specific extension
instance but non-empty gathered telemetry has a non-empty `info` map, so
`info` does not return the empty map for every such asset. -/
theorem info_empty_no_instance_counterexample :
    c1Asset.categoryInstance = Option.none ∧ Asset.info sampleEnv c1Asset ≠ ([] : SMap) := by
  refine ⟨rfl, fun h => ?_⟩
  have hlen : (Asset.info sampleEnv c1Asset).length = 1 := rfl
  rw [h] at hlen
  simp at hlen

/-- C1 (amended): for an asset with no category-specific extension
instance, the structured layer `spec_info` is the empty map, and `info`
degrades to the merge of just the gathered and custom layers (custom
winning on collisions). -/
theorem info_no_instance_spec (env : Env) (a : Asset)
    (h : a.categoryInstance = Option.none) :
    Asset.spec_info env a = [] ∧
      ∀ k, SMap.get (Asset.info env a) k =
        (SMap.get a.custom_info k).or (SMap.get a.gathered_info k) := by
  have hs : Asset.spec_info env a = [] := by simp [Asset.spec_info, h]
  refine ⟨hs, fun k => ?_⟩
  simp [Asset.info, hs]

/-- Witness for `info_no_instance_spec` at a concrete asset and key. -/
theorem info_no_instance_spec_witness :
    Asset.spec_info sampleEnv c1Asset = [] ∧
      SMap.get (Asset.info sampleEnv c1Asset) "k" =
        (SMap.get c1Asset.custom_info "k").or (SMap.get c1Asset.gathered_info "k") :=
  ⟨(info_no_instance_spec sampleEnv c1Asset rfl).1,
   (info_no_instance_spec sampleEnv c1Asset rfl).2 "k"⟩

/-- Helper: in a list whose keys are pairwise distinct, filtering for the
key of a member returns exactly that member. -/
theorem filter_key_singleton {α β : Type _} [BEq β] [LawfulBEq β] (key : α → β)
    (l : List α) (x : α) (hx : x ∈ l) (hnd : (l.map key).Nodup) :
    l.filter (fun y => key y == key x) = [x] := by
  induction l with
  | nil => simp at hx
  | cons a l ih =>
    rw [List.map_cons, List.nodup_cons] at hnd
    rcases List.mem_cons.mp hx with rfl | hx'
    · rw [List.filter_cons]
      simp only [beq_self_eq_true, if_true]
      have hnil : l.filter (fun y => key y == key x) = [] := by
        rw [List.filter_eq_nil_iff]
        intro b hb hpb
        exact hnd.1 ((eq_of_beq hpb) ▸ List.mem_map_of_mem key hb)
      rw [hnil]
    · have hne : (key a == key x) = false := by
        rw [beq_eq_false_iff_ne]
        intro hcontra
        exact hnd.1 (hcontra ▸ List.mem_map_of_mem key hx')
      rw [List.filter_cons]
      simp only [hne, Bool.false_eq_true, if_false]
      exact ih hx' hnd.2

/-- C8: `auto_config` is the base map {su_enabled, domain_enabled,
ansible_enabled := false} when the platform has no automation profile;
otherwise, at every key, the automation profile's binding overwrites or
extends that base map. -/
theorem auto_config_spec (a : Asset) :
    (a.platform.automation = Option.none →
      Asset.auto_config a = auto_config_base a.platform) ∧
    (∀ m, a.platform.automation = some m → ∀ k,
      SMap.get (Asset.auto_config a) k =
        (SMap.get m k).or (SMap.get (auto_config_base a.platform) k)) := by
  constructor
  · intro h
    simp [Asset.auto_config, h]
  · intro m h k
    simp [Asset.auto_config, h]

/-- Witness for `auto_config_spec`: an automation-less platform keeps the
base map, and an automation profile overwrites `ansible_enabled`. -/
theorem auto_config_spec_witness :
    (Asset.auto_config sampleAssetBase = auto_config_base sampleAssetBase.platform) ∧
      SMap.get (Asset.auto_config c8Asset) "ansible_enabled" =
        (SMap.get [("ansible_enabled", PyVal.bool true)] "ansible_enabled").or
          (SMap.get (auto_config_base c8Asset.platform) "ansible_enabled") :=
  ⟨(auto_config_spec sampleAssetBase).1 rfl,
   (auto_config_spec c8Asset).2 [("ansible_enabled", PyVal.bool true)] rfl "ansible_enabled"⟩

/-- C9: `get_target_ssh_port` returns the fixed fallback 22 when the
asset has no protocol named `ssh`, and otherwise the port of an
`ssh`-named protocol of the asset. -/
theorem get_target_ssh_port_spec (a : Asset) :
    ((∀ p ∈ a.protocols, p.name ≠ "ssh") → Asset.get_target_ssh_port a = 22) ∧
    ((∃ p ∈ a.protocols, p.name = "ssh") →
      ∃ p ∈ a.protocols, p.name = "ssh" ∧ Asset.get_target_ssh_port a = p.port) := by
  constructor
  · intro h
    have hnil : a.protocols.filter (fun p => p.name == "ssh") = [] := by
      rw [List.filter_eq_nil_iff]
      intro p hp hpb
      exact h p hp (eq_of_beq hpb)
    simp [Asset.get_target_ssh_port, hnil]
  · intro h
    obtain ⟨p, hp, hname⟩ := h
    cases hq : (a.protocols.filter (fun p => p.name == "ssh")).head? with
    | none =>
      rw [List.head?_eq_none_iff, List.filter_eq_nil_iff] at hq
      exact absurd (beq_iff_eq.mpr hname) (by simpa using hq p hp)
    | some q =>
      have hqmem := List.mem_of_mem_head? (hq ▸ rfl : q ∈ (a.protocols.filter
        (fun p => p.name == "ssh")).head?)
      obtain ⟨hqp, hqname⟩ := List.mem_filter.mp hqmem
      exact ⟨q, hqp, eq_of_beq hqname, by simp [Asset.get_target_ssh_port, hq]⟩

/-- Witness for `get_target_ssh_port_spec`: the fallback on an
`rdp`-only asset and the declared port on an `ssh` asset. -/
theorem get_target_ssh_port_spec_witness :
    Asset.get_target_ssh_port c9AssetRdp = 22 ∧
      ∃ p ∈ c9AssetSsh.protocols, p.name = "ssh" ∧
        Asset.get_target_ssh_port c9AssetSsh = p.port :=
  ⟨(get_target_ssh_port_spec c9AssetRdp).1 (by simp [c9AssetRdp, sampleAssetBase]),
   (get_target_ssh_port_spec c9AssetSsh).2
     ⟨⟨"ssh", 22, Option.none⟩, by simp [c9AssetSsh, sampleAssetBase], rfl⟩⟩

/-- C2: `Protocol.setting` returns the explicit override unchanged when
one is set; with no override it returns the `setting` of the platform
catalog entry matching the protocol's name (the names being unique in
the catalog), and the empty map when no entry matches. -/
theorem protocol_setting_spec (a : Asset) (p : Protocol) :
    (∀ s, p._setting = some s → Protocol.setting a p = s) ∧
    (p._setting = Option.none →
      (a.platform.protocols.map (fun e => e.name)).Nodup →
      ∀ e ∈ a.platform.protocols, e.name = p.name → Protocol.setting a p = e.setting) ∧
    (p._setting = Option.none →
      (∀ e ∈ a.platform.protocols, e.name ≠ p.name) →
      Protocol.setting a p = []) := by
  refine ⟨fun s h => by simp [Protocol.setting, h], fun h hnd e he hname => ?_, fun h hno => ?_⟩
  · have hfilter : a.platform.protocols.filter (fun e' => e'.name == p.name) = [e] := by
      rw [← hname]
      exact filter_key_singleton (fun e' => e'.name) a.platform.protocols e he hnd
    simp [Protocol.setting, h, Protocol.asset_platform_protocol, hfilter]
  · have hnil : a.platform.protocols.filter (fun e' => e'.name == p.name) = [] := by
      rw [List.filter_eq_nil_iff]
      intro e he hpb
      exact hno e he (eq_of_beq hpb)
    simp [Protocol.setting, h, Protocol.asset_platform_protocol, hnil]

/-- Witness for `protocol_setting_spec`: an override is returned
unchanged; without one the matching catalog entry's setting is returned;
with no matching entry the empty map is returned. -/
theorem protocol_setting_spec_witness :
    Protocol.setting sshPlatformAsset ⟨"ssh", 22, some [("y", PyVal.int 2)]⟩ =
        [("y", PyVal.int 2)] ∧
      Protocol.setting sshPlatformAsset ⟨"ssh", 22, Option.none⟩ = [("x", PyVal.int 1)] ∧
      Protocol.setting sshPlatformAsset ⟨"rdp", 3389, Option.none⟩ = [] :=
  ⟨(protocol_setting_spec sshPlatformAsset ⟨"ssh", 22, some [("y", PyVal.int 2)]⟩).1
     [("y", PyVal.int 2)] rfl,
   (protocol_setting_spec sshPlatformAsset ⟨"ssh", 22, Option.none⟩).2.1 rfl
     (by simp [sshPlatformAsset, samplePlatform])
     ⟨"ssh", true, [("x", PyVal.int 1)]⟩ (by simp [sshPlatformAsset, samplePlatform]) rfl,
   (protocol_setting_spec sshPlatformAsset ⟨"rdp", 3389, Option.none⟩).2.2 rfl
     (by simp [sshPlatformAsset, samplePlatform])⟩

/-- C10: an empty-map override is honored (it is returned and the
catalog is bypassed), whereas a `None` override falls back to the
catalog entry's setting. -/
theorem protocol_setting_empty_override_spec (a : Asset) (p : Protocol) :
    (Protocol.setting a { p with _setting := some [] } = []) ∧
    (∀ e, Protocol.asset_platform_protocol a p = some e →
      Protocol.setting a { p with _setting := Option.none } = e.setting) := by
  constructor
  · rfl
  · intro e h
    have : Protocol.asset_platform_protocol a { p with _setting := Option.none } = some e := h
    simp [Protocol.setting, this]

/-- Witness for `protocol_setting_empty_override_spec`: on a platform
declaring ssh setting `{"x": 1}`, the empty override returns `{}` while
the `None` override returns `{"x": 1}`. -/
theorem protocol_setting_empty_override_spec_witness :
    (Protocol.setting sshPlatformAsset
        { (⟨"ssh", 22, some [("z", PyVal.int 3)]⟩ : Protocol) with _setting := some [] } = []) ∧
      Protocol.setting sshPlatformAsset
        { (⟨"ssh", 22, some [("z", PyVal.int 3)]⟩ : Protocol) with _setting := Option.none } =
          [("x", PyVal.int 1)] :=
  ⟨(protocol_setting_empty_override_spec sshPlatformAsset ⟨"ssh", 22, some [("z", PyVal.int 3)]⟩).1,
   (protocol_setting_empty_override_spec sshPlatformAsset
      ⟨"ssh", 22, some [("z", PyVal.int 3)]⟩).2 ⟨"ssh", true, [("x", PyVal.int 1)]⟩ rfl⟩

/-- C7: `get_nodes` returns the asset's own nodes when that set is
non-empty, and the singleton organization root otherwise (the root being
a node of the table with a unique id); the result is never empty. -/
theorem get_nodes_spec (env : Env) (a : Asset)
    (hroot : env.orgRoot ∈ env.nodeDb)
    (hnd : (env.nodeDb.map (fun n => n.id)).Nodup) :
    (a.nodes ≠ [] → Asset.get_nodes env a = a.nodes) ∧
    (a.nodes = [] → Asset.get_nodes env a = [env.orgRoot]) ∧
    Asset.get_nodes env a ≠ [] := by
  have hfilter : env.nodeDb.filter (fun n => n.id == env.orgRoot.id) = [env.orgRoot] :=
    filter_key_singleton (fun n => n.id) env.nodeDb env.orgRoot hroot hnd
  refine ⟨fun h => ?_, fun h => ?_, ?_⟩
  · simp [Asset.get_nodes, List.isEmpty_iff, h]
  · simp [Asset.get_nodes, h, hfilter]
  · cases hn : a.nodes with
    | nil => simp [Asset.get_nodes, hn, hfilter]
    | cons x xs => simp [Asset.get_nodes, hn]

/-- Witness for `get_nodes_spec`: a node-less asset resolves to the
singleton organization root, never the empty set. -/
theorem get_nodes_spec_witness :
    Asset.get_nodes sampleEnv sampleAssetBase = [sampleRoot] ∧
      Asset.get_nodes sampleEnv sampleAssetBase ≠ [] :=
  ⟨(get_nodes_spec sampleEnv sampleAssetBase (by simp [sampleEnv])
      (by simp [sampleEnv])).2.1 rfl,
   (get_nodes_spec sampleEnv sampleAssetBase (by simp [sampleEnv])
      (by simp [sampleEnv])).2.2⟩

/-- Helper: every binding accumulated by the `get_spec_values` loop is
either already in the accumulator or keyed by one of the fields. -/
theorem mem_foldl_spec_values (env : Env) (inst : CategoryInstance)
    (fields : List SpecField) (acc : SMap) (kv : String × PyVal)
    (h : kv ∈ fields.foldl
      (fun info f => SMap.update info [(f.name, specValue env inst f)]) acc) :
    kv ∈ acc ∨ ∃ f ∈ fields, kv.1 = f.name := by
  induction fields generalizing acc with
  | nil => exact Or.inl h
  | cons f fs ih =>
    rw [List.foldl_cons] at h
    rcases ih _ h with hacc | ⟨f', hf', hname⟩
    · simp only [SMap.update] at hacc
      rcases List.mem_append.mp hacc with h1 | h2
      · exact Or.inl h1
      · refine Or.inr ⟨f, List.mem_cons_self f fs, ?_⟩
        rw [List.mem_singleton.mp h2]
    · exact Or.inr ⟨f', List.mem_cons_of_mem f hf', hname⟩

/-- Helper: every binding of `get_spec_values` is keyed by one of the
given fields. -/
theorem mem_get_spec_values (env : Env) (inst : CategoryInstance)
    (fields : List SpecField) (kv : String × PyVal)
    (h : kv ∈ Asset.get_spec_values env inst fields) :
    ∃ f ∈ fields, kv.1 = f.name := by
  rcases mem_foldl_spec_values env inst fields [] kv h with h0 | hf
  · simp at h0
  · exact hf

/-- C5: every binding of `secret_info` is keyed by a field of the
category extension instance that is flagged as encrypted, and
`secret_info` is unchanged under any variation of the asset's gathered
telemetry and custom maps. -/
theorem secret_info_spec (env : Env) (a : Asset) :
    (∀ kv ∈ Asset.secret_info env a, ∃ inst, a.categoryInstance = some inst ∧
      ∃ f ∈ inst.fields, f.name = kv.1 ∧ f.isEncrypt = true) ∧
    (∀ g c, Asset.secret_info env { a with gathered_info := g, custom_info := c } =
      Asset.secret_info env a) := by
  constructor
  · intro kv hkv
    cases hinst : a.categoryInstance with
    | none => simp [Asset.secret_info, hinst] at hkv
    | some inst =>
      refine ⟨inst, rfl, ?_⟩
      rw [Asset.secret_info, hinst] at hkv
      obtain ⟨f, hf, hname⟩ := mem_get_spec_values env inst _ kv hkv
      rw [Asset.get_spec_fields] at hf
      obtain ⟨hf1, hf2⟩ := List.mem_filter.mp hf
      obtain ⟨hf0, _⟩ := List.mem_filter.mp hf1
      exact ⟨f, hf0, hname.symm, by simpa using hf2⟩
  · intro g c
    rfl

/-- Witness for `secret_info_spec`: the single binding of the sample
asset's `secret_info` is keyed by its encrypted field, and varying the
gathered and custom maps leaves `secret_info` unchanged. -/
theorem secret_info_spec_witness :
    (∃ inst, c5Asset.categoryInstance = some inst ∧
      ∃ f ∈ inst.fields, f.name = ("passwd", PyVal.str "s").1 ∧ f.isEncrypt = true) ∧
      Asset.secret_info sampleEnv
          { c5Asset with
            gathered_info := [("k", PyVal.str "g")],
            custom_info := [("k", PyVal.str "c")] } =
        Asset.secret_info sampleEnv c5Asset :=
  ⟨(secret_info_spec sampleEnv c5Asset).1 ("passwd", PyVal.str "s")
     (List.mem_singleton.mpr rfl),
   (secret_info_spec sampleEnv c5Asset).2 [("k", PyVal.str "g")] [("k", PyVal.str "c")]⟩

/-- C4: the batched node resolution of two assets returns exactly the
union of the two per-asset node resolutions. -/
theorem get_all_nodes_for_assets_union (env : Env) (a b : Asset) (n : Node) :
    n ∈ Asset.get_all_nodes_for_assets env [a, b] ↔
      n ∈ Asset.get_all_nodes env a ∨ n ∈ Asset.get_all_nodes env b := by
  simp only [Asset.get_all_nodes_for_assets, Asset.get_all_nodes, List.mem_dedup,
    List.mem_filter, List.elem_iff, List.flatMap_cons, List.flatMap_nil,
    List.append_nil, List.mem_append]
  tauto

/-- Helper: a secret type is accumulated for id `i` by the
`defaultdict(set)` fold exactly when it was already recorded or some row
with first component `i` contributes it. -/
theorem mem_foldl_secret_types (env : Env) (rows : List (Nat × Option String))
    (init : Nat → List String) (i : Nat) (s : String) :
    s ∈ rows.foldl
        (fun m row => fun j => if j = row.1 then m j ++ protocolRowTypes env row.2 else m j)
        init i ↔
      s ∈ init i ∨ ∃ r ∈ rows, r.1 = i ∧ s ∈ protocolRowTypes env r.2 := by
  induction rows generalizing init with
  | nil => simp
  | cons r rows ih =>
    rw [List.foldl_cons, ih]
    by_cases hi : i = r.1
    · simp only [hi, if_pos, List.mem_append, List.mem_cons, exists_eq_or_imp]
      tauto
    · have hi' : ¬(r.1 = i) := fun h => hi h.symm
      simp only [if_neg hi, List.mem_cons, exists_eq_or_imp, hi', false_and, false_or]

/-- C3: `get_secret_type_assets` returns exactly those database assets
among the given identifiers for which the union, over their protocol
names, of the static protocol → secret-types table contains the given
secret type. -/
theorem get_secret_type_assets_spec (env : Env) (asset_ids : List Nat)
    (secret_type : String) (hnd : (env.assetDb.map (fun x => x.id)).Nodup) (a : Asset) :
    a ∈ Asset.get_secret_type_assets env asset_ids secret_type ↔
      a ∈ env.assetDb ∧ a.id ∈ asset_ids ∧
        secret_type ∈ a.protocols.flatMap (fun p => env.protocol_secret_types p.name) := by
  have hsub : ((secretAssetsQueried env asset_ids).map (fun x => x.id)).Nodup :=
    List.Nodup.sublist (List.Sublist.map (fun x => x.id)
      (List.filter_sublist env.assetDb)) hnd
  simp only [Asset.get_secret_type_assets]
  constructor
  · intro ha
    obtain ⟨hass, hsec⟩ := List.mem_filter.mp ha
    have hmem : a ∈ env.assetDb ∧ asset_ids.contains a.id := by
      have h := hass
      rw [secretAssetsQueried] at h
      exact List.mem_filter.mp h
    refine ⟨hmem.1, List.elem_iff.mp hmem.2, ?_⟩
    replace hsec := List.elem_iff.mp hsec
    rw [assetSecretTypesMapp, mem_foldl_secret_types] at hsec
    rcases hsec with h0 | ⟨r, hr, hri, hrs⟩
    · simp at h0
    · rw [assetProtocolRows] at hr
      obtain ⟨b, hb, hrb⟩ := List.mem_flatMap.mp hr
      by_cases hbe : b.protocols.isEmpty
      · rw [if_pos hbe] at hrb
        rw [List.mem_singleton.mp hrb] at hrs
        simp [protocolRowTypes] at hrs
      · rw [if_neg hbe] at hrb
        obtain ⟨p, hp, hpr⟩ := List.mem_map.mp hrb
        rw [← hpr] at hri hrs
        have hri' : b.id = a.id := hri
        have hba : b = a := List.inj_on_of_nodup_map hsub hb hass hri'
        rw [hba] at hp
        exact List.mem_flatMap.mpr ⟨p, hp, by simpa [protocolRowTypes] using hrs⟩
  · rintro ⟨hdb, hid, hs⟩
    have hass : a ∈ secretAssetsQueried env asset_ids := by
      rw [secretAssetsQueried]
      exact List.mem_filter.mpr ⟨hdb, List.elem_iff.mpr hid⟩
    apply List.mem_filter.mpr
    refine ⟨hass, ?_⟩
    rw [List.elem_iff, assetSecretTypesMapp, mem_foldl_secret_types]
    right
    obtain ⟨p, hp, hps⟩ := List.mem_flatMap.mp hs
    refine ⟨(a.id, some p.name), ?_, rfl, by simpa [protocolRowTypes] using hps⟩
    rw [assetProtocolRows]
    apply List.mem_flatMap.mpr
    refine ⟨a, hass, ?_⟩
    have hne : a.protocols.isEmpty = false := by
      cases hpp : a.protocols with
      | nil => rw [hpp] at hp; simp at hp
      | cons x xs => rfl
    rw [hne]
    simp only [Bool.false_eq_true, if_false]
    exact List.mem_map.mpr ⟨p, hp, rfl⟩

/-- Witness for `get_secret_type_assets_spec` at the spec's example:
asset `a1` (protocol ssh) versus secret type `password`. -/
theorem get_secret_type_assets_spec_witness :
    c3AssetA ∈ Asset.get_secret_type_assets c3Env [1, 2] "password" ↔
      c3AssetA ∈ c3Env.assetDb ∧ c3AssetA.id ∈ [1, 2] ∧
        "password" ∈ c3AssetA.protocols.flatMap
          (fun p => c3Env.protocol_secret_types p.name) :=
  get_secret_type_assets_spec c3Env [1, 2] "password"
    (by simp [c3Env, sampleEnv, c3AssetA, c3AssetB, sampleAssetBase]) c3AssetA

end JmsAssets
